import Mathlib

/-!
Verification of the survey-coder classification pipeline
(coder_app/services/classification_service.py): data model, batch
classifier, concurrent batch scheduler, codebook text serializer and
list chunking, embedded shallowly and checked against the design spec.
-/

namespace SurveyCoder

/-- Modelled from the spec: the pydantic models module
(coder_app/models/survey_models.py) is not part of the provided sources.
The index field of a parsed batch item is untrusted model output; the
classifier guards it with an isinstance int check, and the spec (section
4.4) says a non-integer index must be tolerated, so the embedded index is
either an integer or a marker for a non-integer value. -/
inductive JsonIndex where
  | ofInt : Int → JsonIndex
  | notAnInt : JsonIndex
deriving DecidableEq, Repr

/-- Modelled from the spec: ClassificationEvidence is
\x7blabel, fragment, pertinence, optional explanation\x7d per section 3 of
the spec; pertinence is a number, embedded as a rational since the
pipeline only passes it through. -/
structure ClassificationEvidence where
  label : String
  fragment : String
  pertinence : Rat
  explanation : Option String
deriving DecidableEq, Repr

/-- Modelled from the spec: BatchItem is \x7bindex, items\x7d per section 3
of the spec. The classifier reads the items field through an
or-empty-list guard, so it is embedded as optional. -/
structure BatchItem where
  index : JsonIndex
  items : Option (List ClassificationEvidence)
deriving DecidableEq, Repr

/-- Modelled from the spec: BatchClassificationOutput wraps the results
list returned by the model for one batch. -/
structure BatchClassificationOutput where
  results : List BatchItem
deriving DecidableEq, Repr

/-- Modelled from the spec: a Code is \x7bcode, description, examples\x7d
per section 3 of the spec. -/
structure Code where
  code : String
  description : String
  examples : List String
deriving DecidableEq, Repr

/-- Modelled from the spec: a Codebook is an ordered sequence of codes. -/
structure Codebook where
  codes : List Code
deriving DecidableEq, Repr

/-- One detail record of an aligned result, as built by classify_batch:
a dict with label, fragment, pertinence and explanation keys. -/
structure DetailRecord where
  label : String
  fragment : String
  pertinence : Rat
  explanation : Option String
deriving DecidableEq, Repr

/-- One aligned per-response result of classify_batch: a dict with the
Assigned Code and Details keys. -/
structure AlignedResult where
  assignedCode : String
  details : List DetailRecord
deriving DecidableEq, Repr

/-- The default placeholder entry used by classify_batch. -/
def defaultAligned : AlignedResult :=
  { assignedCode := "No Code Applied", details := [] }

/-- The adapter abstracts _call_openai_api with the
BatchClassificationOutput schema: it receives the system message, the
user prompt and the model id, and returns the parsed structured output
or none on any failure. -/
def BatchAdapter : Type :=
  String → String → String → Option BatchClassificationOutput

/-- The indexed response block of the batch prompt, from
classification_service.py line 103. In the source every escape is the
two-character sequence backslash-n or backslash-quote, written here
verbatim. -/
def indexed_block (responses : List String) : String :=
  String.intercalate "\\n"
    ((responses.enum).map (fun p => "[" ++ toString p.1 ++ "] \\\"" ++ p.2 ++ "\\\""))

/-- The batch classification prompt, from classification_service.py
lines 103 to 121, with the literal backslash sequences of the source
kept as they appear there. -/
def batch_prompt (question : String) (responses : List String)
    (codebook_text : String) (multi_label : Bool)
    (include_explanation : Bool) : String :=
  let explanation_field := if include_explanation then ", \"explanation\": string" else ""
  let explanation_note :=
    if include_explanation then "" else "\\nDo NOT include an \"explanation\" field."
  let single_rule :=
    if multi_label then "" else "For single-label, each items list MUST contain exactly one item."
  "Analyze the indexed responses against the codebook.\nQuestion: \"" ++ question ++
    "\"\nCodebook:\\n---\\n" ++ codebook_text ++ "\\n---\nResponses (indexed):\\n" ++
    indexed_block responses ++
    "\nReturn ONLY JSON with this schema:\n\x7b\n  \"results\": [\n    \x7b \"index\": number, \"items\": [ \x7b \"label\": string, \"fragment\": string, \"pertinence\": number (0-1)" ++
    explanation_field ++ " \x7d ] \x7d\n  ]\n\x7d" ++ explanation_note ++ "\n" ++
    single_rule ++ "\nFor uncovered responses, use an empty list for items.\n"

/-- The aligned entry written for one valid result item, from
classification_service.py lines 140 to 152: labels joined with the
separator bar, the sentinel when the label list is empty, and the
explanation suppressed when include_explanation is false. -/
def renderItem (include_explanation : Bool) (item : BatchItem) : AlignedResult :=
  let evs := item.items.getD []
  let labels := evs.map (fun ev => ev.label)
  { assignedCode :=
      if labels.isEmpty then "No Code Applied" else String.intercalate " | " labels,
    details := evs.map (fun ev =>
      { label := ev.label, fragment := ev.fragment, pertinence := ev.pertinence,
        explanation := if include_explanation then ev.explanation else none }) }

/-- One iteration of the alignment loop of classify_batch, lines 136 to
152: a non-integer or out-of-range index is skipped, otherwise the slot
at that index is overwritten. -/
def applyItem (n : Nat) (include_explanation : Bool)
    (aligned : List AlignedResult) (item : BatchItem) : List AlignedResult :=
  match item.index with
  | JsonIndex.notAnInt => aligned
  | JsonIndex.ofInt i =>
      if i < 0 ∨ (n : Int) ≤ i then aligned
      else aligned.set i.toNat (renderItem include_explanation item)

/-- Batch classifier, classification_service.py lines 84 to 154: on an
empty batch return the empty list without calling the adapter; otherwise
build the prompt, call the adapter, set up one default entry per
response, and apply each returned result item in order. -/
def classify_batch (adapter : BatchAdapter) (question : String)
    (responses : List String) (codebook_text : String) (model : String)
    (multi_label : Bool) (include_explanation : Bool) : List AlignedResult :=
  if responses.isEmpty then []
  else
    let system_msg := "You are a survey coding assistant."
    let prompt := batch_prompt question responses codebook_text multi_label include_explanation
    let parsed := adapter system_msg prompt model
    let aligned := responses.map (fun _ => defaultAligned)
    match parsed with
    | none => aligned
    | some p =>
        if p.results.isEmpty then aligned
        else p.results.foldl (applyItem responses.length include_explanation) aligned

/-- Concurrent batch scheduler, classification_service.py lines 156 to
191. Each worker computes the pair of its submission index and the
classify_batch result for its own batch, with no shared mutable state,
so the only nondeterminism of the thread pool is the order in which
as_completed yields the finished futures; that order is the explicit
completion_order argument, and each completed result is written into
the slot of the pre-sized results list given by its submission index.
The None placeholders of the source become none entries. -/
def classify_batches_async (adapter : BatchAdapter) (question : String)
    (batched_responses : List (List String)) (codebook_text : String)
    (model : String) (multi_label : Bool) (include_explanation : Bool)
    (completion_order : List Nat) : List (Option (List AlignedResult)) :=
  if batched_responses.isEmpty then []
  else
    completion_order.foldl
      (fun results i =>
        results.set i (some (classify_batch adapter question
          (batched_responses.getD i []) codebook_text model multi_label
          include_explanation)))
      (List.replicate batched_responses.length none)

/-- Python str.strip embedded directly: remove whitespace characters
from both ends of the string. -/
def py_strip (s : String) : String :=
  String.mk
    (((s.toList.dropWhile Char.isWhitespace).reverse.dropWhile
        Char.isWhitespace).reverse)

/-- Codebook text serializer, classification_service.py lines 220 to
235. In the source file the join separator and the separator before the
Description field are the two-character sequence backslash-n, not a
newline; they are kept verbatim here. -/
def reconstruct_codebook_text (codebook : Codebook) : String :=
  if codebook.codes.isEmpty then ""
  else
    py_strip (String.intercalate "\\n"
      (codebook.codes.map (fun item =>
        "- Code: " ++ item.code ++ "\\n  Description: " ++ item.description)))

/-- List chunking, classification_service.py lines 345 to 348: the
Python slice items[i : i+size] for i in range(0, len(items), size). -/
def chunk_list (items : List String) (size : Nat) : List (List String) :=
  (List.range' 0 ((items.length + size - 1) / size) size).map
    (fun i => (items.drop i).take size)

/-- A result item the alignment loop accepts: an integer index inside
the range of the batch. -/
def validEntry (n : Nat) (item : BatchItem) : Bool :=
  match item.index with
  | JsonIndex.ofInt i => !decide (i < 0 ∨ (n : Int) ≤ i)
  | JsonIndex.notAnInt => false

lemma applyItem_length (n : Nat) (ie : Bool) (acc : List AlignedResult)
    (it : BatchItem) : (applyItem n ie acc it).length = acc.length := by
  unfold applyItem
  cases it.index with
  | notAnInt => rfl
  | ofInt i =>
      dsimp only
      split
      · rfl
      · exact List.length_set acc i.toNat _

lemma foldl_applyItem_length (n : Nat) (ie : Bool) (l : List BatchItem) :
    ∀ acc : List AlignedResult,
      (l.foldl (applyItem n ie) acc).length = acc.length := by
  induction l with
  | nil => intro acc; rfl
  | cons it l ih =>
      intro acc
      rw [List.foldl_cons, ih, applyItem_length]

lemma applyItem_invalid (n : Nat) (ie : Bool) (acc : List AlignedResult)
    (it : BatchItem) (h : validEntry n it = false) :
    applyItem n ie acc it = acc := by
  obtain ⟨idx, its⟩ := it
  cases idx with
  | notAnInt => rfl
  | ofInt i =>
      unfold validEntry at h
      unfold applyItem
      dsimp only at h ⊢
      split
      · rfl
      · next hguard =>
          exfalso
          simp at h
          omega

lemma mem_applyItem (n : Nat) (ie : Bool) (acc : List AlignedResult)
    (it : BatchItem) (r : AlignedResult) (h : r ∈ applyItem n ie acc it) :
    r ∈ acc ∨ r = renderItem ie it := by
  obtain ⟨idx, its⟩ := it
  cases idx with
  | notAnInt => exact Or.inl h
  | ofInt i =>
      unfold applyItem at h
      dsimp only at h
      split at h
      · exact Or.inl h
      · exact List.mem_or_eq_of_mem_set h

lemma foldl_applyItem_filter (n : Nat) (ie : Bool) (l : List BatchItem) :
    ∀ acc : List AlignedResult,
      l.foldl (applyItem n ie) acc
        = (l.filter (validEntry n)).foldl (applyItem n ie) acc := by
  induction l with
  | nil => intro acc; rfl
  | cons it l ih =>
      intro acc
      rw [List.foldl_cons, List.filter_cons]
      by_cases hv : validEntry n it = true
      · rw [if_pos hv, List.foldl_cons, ih]
      · have hv0 : validEntry n it = false := by simpa using hv
        rw [if_neg hv, applyItem_invalid n ie acc it hv0, ih]

lemma foldl_applyItem_untouched (n : Nat) (ie : Bool) (j : Nat)
    (l : List BatchItem) :
    ∀ acc : List AlignedResult,
      (∀ it ∈ l, it.index ≠ JsonIndex.ofInt (j : Int)) →
      (l.foldl (applyItem n ie) acc)[j]? = acc[j]? := by
  induction l with
  | nil => intro acc _; rfl
  | cons it l ih =>
      intro acc h
      rw [List.foldl_cons]
      rw [ih _ (fun x hx => h x (List.mem_cons.mpr (Or.inr hx)))]
      have hhead := h it (List.mem_cons.mpr (Or.inl rfl))
      unfold applyItem
      cases hidx : it.index with
      | notAnInt => rfl
      | ofInt i =>
          dsimp only
          split
          · rfl
          · next hguard =>
              have h0 : 0 ≤ i := by omega
              have hne : i.toNat ≠ j := by
                intro hc
                apply hhead
                rw [hidx]
                have : i = (j : Int) := by omega
                rw [this]
              exact List.getElem?_set_ne hne

lemma mem_map_default (responses : List String) (r : AlignedResult)
    (h : r ∈ responses.map (fun _ => defaultAligned)) : r = defaultAligned := by
  rcases List.mem_map.mp h with ⟨x, _, hx⟩
  exact hx.symm

/-- Claim C1: for every question, response list, codebook text, model
id, flag setting and adapter behavior (null return included), the
result of classify_batch has exactly the same length as the input
response list. -/
theorem classify_batch_length_invariant (adapter : BatchAdapter)
    (question : String) (responses : List String) (codebook_text : String)
    (model : String) (multi_label include_explanation : Bool) :
    (classify_batch adapter question responses codebook_text model
        multi_label include_explanation).length = responses.length := by
  by_cases h : responses = []
  · subst h; rfl
  · have hne : responses.isEmpty = false := List.isEmpty_eq_false.mpr h
    simp only [classify_batch, hne, Bool.false_eq_true, if_false]
    cases adapter "You are a survey coding assistant."
        (batch_prompt question responses codebook_text multi_label
          include_explanation) model with
    | none => exact List.length_map responses _
    | some p =>
        dsimp only
        split
        · exact List.length_map responses _
        · rw [foldl_applyItem_length, List.length_map]

/-- Claim C3: for every response list, if the adapter returns none, or
returns a parsed result whose results list is empty, then every entry
of the classify_batch output is the default No Code Applied record. -/
theorem classify_batch_default_fallback (adapter : BatchAdapter)
    (question : String) (responses : List String) (codebook_text : String)
    (model : String) (multi_label include_explanation : Bool)
    (h : adapter "You are a survey coding assistant."
          (batch_prompt question responses codebook_text multi_label
            include_explanation) model = none
      ∨ ∃ p, adapter "You are a survey coding assistant."
            (batch_prompt question responses codebook_text multi_label
              include_explanation) model = some p ∧ p.results = []) :
    classify_batch adapter question responses codebook_text model
        multi_label include_explanation
      = List.replicate responses.length defaultAligned := by
  by_cases hr : responses = []
  · subst hr; rfl
  · have hne : responses.isEmpty = false := List.isEmpty_eq_false.mpr hr
    rcases h with h | ⟨p, hp, hres⟩
    · simp only [classify_batch, hne, Bool.false_eq_true, if_false, h,
        List.map_const']
    · simp only [classify_batch, hne, Bool.false_eq_true, if_false, hp, hres,
        List.isEmpty_nil, if_true, List.map_const']

/-- Witness for claim C3 at a concrete input: an adapter that always
fails yields the all-default list. -/
theorem classify_batch_default_fallback_witness :
    classify_batch (fun _ _ _ => none) "q" ["a", "b"] "cb" "m" false true
      = List.replicate 2 defaultAligned :=
  classify_batch_default_fallback (fun _ _ _ => none) "q" ["a", "b"] "cb"
    "m" false true (Or.inl rfl)

/-- Claim C6: when include_explanation is false, every detail record in
every output slot of classify_batch has its explanation field none, for
every adapter behavior. -/
theorem classify_batch_explanation_suppressed (adapter : BatchAdapter)
    (question : String) (responses : List String) (codebook_text : String)
    (model : String) (multi_label : Bool) :
    ((classify_batch adapter question responses codebook_text model
        multi_label false).all
      (fun r => r.details.all (fun d => d.explanation.isNone))) = true := by
  rw [List.all_eq_true]
  intro r hr
  rw [List.all_eq_true]
  intro d hd
  suffices hsuf : d.explanation = none by simp [hsuf]
  by_cases h : responses = []
  · subst h; simp [classify_batch] at hr
  · have hne : responses.isEmpty = false := List.isEmpty_eq_false.mpr h
    simp only [classify_batch, hne, Bool.false_eq_true, if_false] at hr
    have base : ∀ r0 ∈ responses.map (fun _ => defaultAligned),
        ∀ d0 ∈ r0.details, d0.explanation = none := by
      intro r0 hr0 d0 hd0
      rw [mem_map_default responses r0 hr0] at hd0
      simp [defaultAligned] at hd0
    have step : ∀ (l : List BatchItem) (acc : List AlignedResult),
        (∀ r0 ∈ acc, ∀ d0 ∈ r0.details, d0.explanation = none) →
        ∀ r0 ∈ l.foldl (applyItem responses.length false) acc,
          ∀ d0 ∈ r0.details, d0.explanation = none := by
      intro l
      induction l with
      | nil => intro acc hacc; exact hacc
      | cons it l ih =>
          intro acc hacc
          rw [List.foldl_cons]
          apply ih
          intro r0 hr0 d0 hd0
          rcases mem_applyItem responses.length false acc it r0 hr0 with hmem | rfl
          · exact hacc r0 hmem d0 hd0
          · simp only [renderItem, List.mem_map] at hd0
            rcases hd0 with ⟨ev, _, hev⟩
            rw [← hev]
            rfl
    cases hp : adapter "You are a survey coding assistant."
        (batch_prompt question responses codebook_text multi_label false)
        model with
    | none => rw [hp] at hr; exact base r hr d hd
    | some p =>
        rw [hp] at hr
        dsimp only at hr
        split at hr
        · exact base r hr d hd
        · exact step p.results _ base r hr d hd

/-- Claim C7: classifying an empty batch, or an empty batch list,
returns the empty list for every adapter, every other argument and
every completion order; in particular the output does not depend on the
adapter, which is never invoked. -/
theorem classify_empty_input (adapter : BatchAdapter) (question : String)
    (codebook_text : String) (model : String)
    (multi_label include_explanation : Bool)
    (completion_order : List Nat) :
    classify_batch adapter question [] codebook_text model multi_label
        include_explanation = []
    ∧ classify_batches_async adapter question [] codebook_text model
        multi_label include_explanation completion_order = [] :=
  ⟨rfl, rfl⟩

lemma isEmpty_map_eq {α β : Type} (f : α → β) (l : List α) :
    (l.map f).isEmpty = l.isEmpty := by
  cases l <;> rfl

lemma applyItem_valid (n : Nat) (ie : Bool) (acc : List AlignedResult)
    (it : BatchItem) (i : Int) (hidx : it.index = JsonIndex.ofInt i)
    (h0 : 0 ≤ i) (hn : i < (n : Int)) :
    applyItem n ie acc it = acc.set i.toNat (renderItem ie it) := by
  obtain ⟨idx, its⟩ := it
  dsimp only at hidx
  subst hidx
  unfold applyItem
  dsimp only
  rw [if_neg]
  omega

lemma getElem?_map_default (responses : List String) (j : Nat)
    (hj : j < responses.length) :
    (responses.map (fun _ => defaultAligned))[j]? = some defaultAligned := by
  rw [List.getElem?_map, List.getElem?_eq_getElem hj]
  rfl

/-- Claim C4: result entries with a non-integer, negative or
out-of-range index are discarded silently: the classify_batch output
equals the output computed from only the valid entries, and any slot
not targeted by an entry with that integer index keeps its default
placeholder. -/
theorem classify_batch_index_tolerance (question : String)
    (codebook_text model : String) (multi_label include_explanation : Bool)
    (responses : List String) (results : List BatchItem) :
    classify_batch (fun _ _ _ => some ⟨results⟩) question responses
        codebook_text model multi_label include_explanation
      = classify_batch
          (fun _ _ _ => some ⟨results.filter (validEntry responses.length)⟩)
          question responses codebook_text model multi_label
          include_explanation
    ∧ ∀ j : Nat, j < responses.length →
        (∀ it ∈ results, it.index ≠ JsonIndex.ofInt (j : Int)) →
        (classify_batch (fun _ _ _ => some ⟨results⟩) question responses
            codebook_text model multi_label include_explanation)[j]?
          = some defaultAligned := by
  by_cases h : responses = []
  · subst h
    refine ⟨rfl, ?_⟩
    intro j hj
    simp at hj
  · have hne : responses.isEmpty = false := List.isEmpty_eq_false.mpr h
    constructor
    · simp only [classify_batch, hne, Bool.false_eq_true, if_false]
      rw [foldl_applyItem_filter]
      by_cases hres : results = []
      · subst hres; rfl
      · have hres' : results.isEmpty = false := List.isEmpty_eq_false.mpr hres
        simp only [hres', Bool.false_eq_true, if_false]
        by_cases hf : results.filter (validEntry responses.length) = []
        · rw [hf]
          rfl
        · have hf' : (results.filter (validEntry responses.length)).isEmpty = false :=
            List.isEmpty_eq_false.mpr hf
          simp only [hf', Bool.false_eq_true, if_false]
    · intro j hj htgt
      simp only [classify_batch, hne, Bool.false_eq_true, if_false]
      split
      · exact getElem?_map_default responses j hj
      · rw [foldl_applyItem_untouched responses.length include_explanation j
          results _ htgt]
        exact getElem?_map_default responses j hj

/-- Witness for claim C4 at a concrete input: entries with index -1,
with index equal to the batch length and with a non-integer index leave
the single default slot unchanged. -/
theorem classify_batch_index_tolerance_witness :
    (classify_batch
        (fun _ _ _ => some ⟨[⟨JsonIndex.ofInt (-1), some [⟨"A", "f", 1, none⟩]⟩,
          ⟨JsonIndex.ofInt 1, some [⟨"A", "f", 1, none⟩]⟩,
          ⟨JsonIndex.notAnInt, some [⟨"A", "f", 1, none⟩]⟩]⟩)
        "q" ["r"] "cb" "m" false true)[0]?
      = some defaultAligned :=
  (classify_batch_index_tolerance "q" "cb" "m" false true ["r"]
    [⟨JsonIndex.ofInt (-1), some [⟨"A", "f", 1, none⟩]⟩,
     ⟨JsonIndex.ofInt 1, some [⟨"A", "f", 1, none⟩]⟩,
     ⟨JsonIndex.notAnInt, some [⟨"A", "f", 1, none⟩]⟩]).2 0 (by decide)
    (by decide)

/-- Claim C5: an adapter result entry with a valid in-range integer
index overwrites exactly its own output slot: the assigned code is the
item labels joined with the bar separator, or the sentinel when the
item list is empty, and the details carry label, fragment, pertinence
and explanation, the latter subject to the include_explanation flag. -/
theorem classify_batch_valid_entry_overwrites (question : String)
    (codebook_text model : String) (multi_label include_explanation : Bool)
    (responses : List String) (item : BatchItem) (i : Int)
    (hidx : item.index = JsonIndex.ofInt i) (h0 : 0 ≤ i)
    (hn : i < (responses.length : Int)) :
    classify_batch (fun _ _ _ => some ⟨[item]⟩) question responses
        codebook_text model multi_label include_explanation
      = (responses.map (fun _ => defaultAligned)).set i.toNat
          { assignedCode :=
              if (item.items.getD []).isEmpty then "No Code Applied"
              else String.intercalate " | "
                ((item.items.getD []).map (fun ev => ev.label)),
            details := (item.items.getD []).map (fun ev =>
              { label := ev.label, fragment := ev.fragment,
                pertinence := ev.pertinence,
                explanation :=
                  if include_explanation then ev.explanation else none }) } := by
  have hr : responses ≠ [] := by
    intro hc
    subst hc
    simp at hn
    omega
  have hne : responses.isEmpty = false := List.isEmpty_eq_false.mpr hr
  simp only [classify_batch, hne, Bool.false_eq_true, if_false,
    List.isEmpty_cons]
  rw [List.foldl_cons, List.foldl_nil]
  rw [applyItem_valid responses.length include_explanation _ item i hidx h0 hn]
  congr 1
  simp only [renderItem, isEmpty_map_eq]

/-- Witness for claim C5 at a concrete input: labels A and B joined to
exactly the string A bar B in slot one of a two-response batch. -/
theorem classify_batch_valid_entry_overwrites_witness :
    classify_batch
        (fun _ _ _ => some ⟨[⟨JsonIndex.ofInt 1,
          some [⟨"A", "fa", 1, none⟩, ⟨"B", "fb", 1, some "why"⟩]⟩]⟩)
        "q" ["x", "y"] "cb" "m" false true
      = [defaultAligned,
         { assignedCode := "A | B",
           details := [⟨"A", "fa", 1, none⟩, ⟨"B", "fb", 1, some "why"⟩] }] :=
  (classify_batch_valid_entry_overwrites "q" "cb" "m" false true ["x", "y"]
    ⟨JsonIndex.ofInt 1, some [⟨"A", "fa", 1, none⟩, ⟨"B", "fb", 1, some "why"⟩]⟩
    1 rfl (by decide) (by decide)).trans (by decide)

/-- Claim C10: duplicate result entries bearing the same valid index
are applied in result-list order, each overwriting the slot, so the
last entry targeting the slot determines its final content. -/
theorem classify_batch_duplicate_last_wins (question : String)
    (codebook_text model : String) (multi_label include_explanation : Bool)
    (responses : List String) (pre post : List BatchItem) (e : BatchItem)
    (i : Nat) (hi : i < responses.length)
    (he : e.index = JsonIndex.ofInt (i : Int))
    (hpost : ∀ it ∈ post, it.index ≠ JsonIndex.ofInt (i : Int)) :
    (classify_batch (fun _ _ _ => some ⟨pre ++ e :: post⟩) question responses
        codebook_text model multi_label include_explanation)[i]?
      = some (renderItem include_explanation e) := by
  have hr : responses ≠ [] := by
    intro hc
    subst hc
    simp at hi
  have hne : responses.isEmpty = false := List.isEmpty_eq_false.mpr hr
  simp only [classify_batch, hne, Bool.false_eq_true, if_false]
  have hresne : (pre ++ e :: post).isEmpty = false := by simp
  simp only [hresne, Bool.false_eq_true, if_false]
  rw [List.foldl_append, List.foldl_cons]
  rw [foldl_applyItem_untouched responses.length include_explanation i post _
    hpost]
  rw [applyItem_valid responses.length include_explanation _ e (i : Int) he
    (by omega) (by omega)]
  have hlen : (List.foldl (applyItem responses.length include_explanation)
      (responses.map fun _ => defaultAligned) pre).length
        = responses.length := by
    rw [foldl_applyItem_length, List.length_map]
  have htn : ((i : Int)).toNat = i := Int.toNat_natCast i
  rw [htn]
  exact List.getElem?_set_eq_of_lt _ (by rw [hlen]; exact hi)

/-- Witness for claim C10 at a concrete input: two entries both target
slot zero and the second one wins. -/
theorem classify_batch_duplicate_last_wins_witness :
    (classify_batch
        (fun _ _ _ => some ⟨[⟨JsonIndex.ofInt 0, some [⟨"A", "f", 1, none⟩]⟩,
          ⟨JsonIndex.ofInt 0, some [⟨"B", "g", 1, none⟩]⟩]⟩)
        "q" ["x"] "cb" "m" false true)[0]?
      = some { assignedCode := "B",
               details := [⟨"B", "g", 1, none⟩] } :=
  (classify_batch_duplicate_last_wins "q" "cb" "m" false true ["x"]
    [⟨JsonIndex.ofInt 0, some [⟨"A", "f", 1, none⟩]⟩] []
    ⟨JsonIndex.ofInt 0, some [⟨"B", "g", 1, none⟩]⟩ 0 (by decide) rfl
    (by simp)).trans (by decide)

lemma foldl_set_length {α : Type} (g : Nat → α) (order : List Nat) :
    ∀ acc : List α,
      (order.foldl (fun r i => r.set i (g i)) acc).length = acc.length := by
  induction order with
  | nil => intro acc; rfl
  | cons i rest ih =>
      intro acc
      rw [List.foldl_cons, ih, List.length_set]

lemma foldl_set_getElem? {α : Type} (g : Nat → α) (order : List Nat) :
    ∀ (acc : List α) (j : Nat), j < acc.length →
      (order.foldl (fun r i => r.set i (g i)) acc)[j]?
        = if j ∈ order then some (g j) else acc[j]? := by
  induction order with
  | nil =>
      intro acc j _
      rw [List.foldl_nil, if_neg (List.not_mem_nil j)]
  | cons i rest ih =>
      intro acc j hj
      rw [List.foldl_cons]
      rw [ih (acc.set i (g i)) j (by rw [List.length_set]; exact hj)]
      by_cases hmem : j ∈ rest
      · rw [if_pos hmem, if_pos (List.mem_cons.mpr (Or.inr hmem))]
      · rw [if_neg hmem]
        by_cases hij : i = j
        · subst hij
          rw [if_pos (List.mem_cons.mpr (Or.inl rfl))]
          exact List.getElem?_set_eq_of_lt (g i) hj
        · rw [List.getElem?_set_ne hij]
          rw [if_neg]
          intro hc
          rcases List.mem_cons.mp hc with hc | hc
          · exact hij hc.symm
          · exact hmem hc

/-- Claim C2: the concurrent scheduler is indexed by original batch
submission position, not completion order: for every completion order
that is a permutation of the batch indices, the scheduler output is the
sequential map of classify_batch over the batches, each slot wrapped in
some because the pre-sized results list starts as None placeholders. -/
theorem classify_batches_async_eq_sequential (adapter : BatchAdapter)
    (question : String) (batched_responses : List (List String))
    (codebook_text model : String) (multi_label include_explanation : Bool)
    (completion_order : List Nat)
    (h : completion_order.Perm (List.range batched_responses.length)) :
    classify_batches_async adapter question batched_responses codebook_text
        model multi_label include_explanation completion_order
      = (batched_responses.map (fun batch =>
          classify_batch adapter question batch codebook_text model
            multi_label include_explanation)).map some := by
  by_cases hb : batched_responses = []
  · subst hb; rfl
  · have hne : batched_responses.isEmpty = false := List.isEmpty_eq_false.mpr hb
    simp only [classify_batches_async, hne, Bool.false_eq_true, if_false]
    apply List.ext_getElem?
    intro j
    by_cases hj : j < batched_responses.length
    · rw [foldl_set_getElem? _ completion_order _ j
        (by rw [List.length_replicate]; exact hj)]
      have hjmem : j ∈ completion_order := by
        rw [h.mem_iff, List.mem_range]
        exact hj
      rw [if_pos hjmem]
      rw [List.getElem?_map, List.getElem?_map,
        List.getElem?_eq_getElem hj]
      simp only [Option.map_some']
      rw [List.getD_eq_getElem batched_responses [] hj]
    · have hj' : batched_responses.length ≤ j := by omega
      rw [List.getElem?_eq_none (by rw [foldl_set_length, List.length_replicate]; exact hj'),
        List.getElem?_eq_none (by rw [List.length_map, List.length_map]; exact hj')]

/-- Witness for claim C2 at a concrete input: two batches completed in
reversed order still come back in submission order. -/
theorem classify_batches_async_eq_sequential_witness :
    classify_batches_async (fun _ _ _ => none) "q" [["a"], ["b"]] "cb" "m"
        false true [1, 0]
      = ([["a"], ["b"]].map (fun batch =>
          classify_batch (fun _ _ _ => none) "q" batch "cb" "m"
            false true)).map some :=
  classify_batches_async_eq_sequential (fun _ _ _ => none) "q"
    [["a"], ["b"]] "cb" "m" false true [1, 0] (by decide)

lemma chunk_list_nil (size : Nat) : chunk_list [] size = [] := by
  unfold chunk_list
  have hz : (List.length ([] : List String) + size - 1) / size = 0 := by
    simp only [List.length_nil, Nat.zero_add]
    rcases Nat.eq_zero_or_pos size with h | h
    · subst h; rfl
    · exact Nat.div_eq_of_lt (by omega)
  rw [hz]
  rfl

lemma chunk_list_cons (items : List String) (size : Nat) (hs : 0 < size)
    (hne : items ≠ []) :
    chunk_list items size
      = items.take size :: chunk_list (items.drop size) size := by
  have hn : 0 < items.length := List.length_pos.mpr hne
  unfold chunk_list
  have hk : (items.length + size - 1) / size
      = ((items.drop size).length + size - 1) / size + 1 := by
    rw [List.length_drop]
    have e1 : items.length + size - 1 = (items.length - 1) + size := by omega
    rw [e1, Nat.add_div_right _ hs]
    congr 1
    by_cases hcase : size ≤ items.length
    · congr 1
      omega
    · have h0 : items.length - size = 0 := by omega
      rw [h0]
      rw [Nat.div_eq_of_lt (by omega), Nat.div_eq_of_lt (by omega)]
  rw [hk, List.range'_succ]
  rw [List.map_cons]
  congr 1
  have hshift : List.range' (0 + size)
        (((items.drop size).length + size - 1) / size) size
      = List.map (fun x => size + x)
          (List.range' 0 (((items.drop size).length + size - 1) / size) size) := by
    rw [List.map_add_range', Nat.add_zero, Nat.zero_add]
  rw [hshift, List.map_map]
  apply List.map_congr_left
  intro a _
  simp only [Function.comp_apply]
  rw [List.drop_drop]

lemma chunk_list_flatten (size : Nat) (hs : 0 < size)
    (items : List String) : (chunk_list items size).flatten = items := by
  by_cases hne : items = []
  · subst hne
    rw [chunk_list_nil]
    rfl
  · rw [chunk_list_cons items size hs hne, List.flatten_cons,
      chunk_list_flatten size hs (items.drop size), List.take_append_drop]
termination_by items.length
decreasing_by
  have h1 : 0 < items.length := List.length_pos.mpr hne
  rw [List.length_drop]
  omega

lemma chunk_list_dropLast_full (size : Nat) (hs : 0 < size)
    (items : List String) :
    ∀ c ∈ (chunk_list items size).dropLast, c.length = size := by
  by_cases hne : items = []
  · subst hne
    rw [chunk_list_nil]
    intro c hc
    simp at hc
  · rw [chunk_list_cons items size hs hne]
    by_cases hd : items.drop size = []
    · rw [hd, chunk_list_nil]
      intro c hc
      simp at hc
    · have hlne : chunk_list (items.drop size) size ≠ [] := by
        rw [chunk_list_cons _ size hs hd]
        simp
      rw [List.dropLast_cons_of_ne_nil hlne]
      intro c hc
      rcases List.mem_cons.mp hc with rfl | hc
      · have hsz : size ≤ items.length := by
          by_contra hlt
          exact hd (List.drop_eq_nil_iff.mpr (by omega))
        rw [List.length_take]
        omega
      · exact chunk_list_dropLast_full size hs (items.drop size) c hc
termination_by items.length
decreasing_by
  have h1 : 0 < items.length := List.length_pos.mpr hne
  rw [List.length_drop]
  omega

lemma chunk_list_length_le (items : List String) (size : Nat) :
    ∀ c ∈ chunk_list items size, c.length ≤ size := by
  intro c hc
  simp only [chunk_list, List.mem_map] at hc
  obtain ⟨a, _, rfl⟩ := hc
  rw [List.length_take]
  omega

/-- Claim C9: for every list and positive chunk size, chunk_list is a
pure order-preserving slicing: the chunks concatenate back to the
original list, every chunk except possibly the last has length equal to
the chunk size, and no chunk exceeds the chunk size. -/
theorem chunk_list_slicing (items : List String) (size : Nat)
    (hs : 0 < size) :
    (chunk_list items size).flatten = items
    ∧ (∀ c ∈ (chunk_list items size).dropLast, c.length = size)
    ∧ (∀ c ∈ chunk_list items size, c.length ≤ size) :=
  ⟨chunk_list_flatten size hs items,
   chunk_list_dropLast_full size hs items,
   chunk_list_length_le items size⟩

/-- Witness for claim C9 at a concrete input: chunking five items with
size two gives chunks of two, two and one that refit exactly. -/
theorem chunk_list_slicing_witness :
    (chunk_list ["a", "b", "c", "d", "e"] 2).flatten
      = ["a", "b", "c", "d", "e"] :=
  (chunk_list_slicing ["a", "b", "c", "d", "e"] 2 (by decide)).1

/-- Claim C8: evaluation of the codebook text serializer on a two-code
codebook. The separator between the code line and the description line,
and between per-code blocks, is the literal two-character sequence
backslash-n as written in the source file, not a newline: the produced
string contains no newline character at all, so the description is not
placed on a next line. -/
theorem reconstruct_codebook_text_literal_backslash :
    reconstruct_codebook_text ⟨[⟨"A", "d1", []⟩, ⟨"B", "d2", []⟩]⟩
        = "- Code: A\\n  Description: d1\\n- Code: B\\n  Description: d2"
    ∧ ("- Code: A\\n  Description: d1\\n- Code: B\\n  Description: d2".toList.contains
        (Char.ofNat 10)) = false := by
  constructor
  · decide
  · decide

end SurveyCoder
